import Mathlib

/-!
# libQuotient: the crypto verification utility and the playable content layer

A shallow embedding of

* `lib/e2ee/qolmutility.cpp` (`lastError`, `QOlmUtility::sha256Bytes`,
  `QOlmUtility::sha256Utf8Msg`, `QOlmUtility::ed25519Verify`), and
* `events/roommessageevent.h` (`EventContent::PlayableContent`),

followed by the theorems that settle the specification's statements about them.

The functions of libolm, the `QOlmError` table of `e2ee/qolmerrors.h` and the
decoder `QString::fromUtf8` are not part of these two files; the embedding takes
them as parameters, so every theorem holds for all of their possible behaviours
unless a hypothesis says otherwise.
-/

set_option autoImplicit false

namespace Quotient

/-! ## Byte arrays and strings -/

/-- A `QByteArray`: a sequence of bytes, each byte a natural number below 256. -/
abbrev QByteArray := List Nat

/-- A `QString`: a sequence of Unicode characters. -/
abbrev QString := String

/-- The constructor `QByteArray(size, ch)`: `size` copies of the byte `ch`. Sizes
and lengths are natural numbers; they are taken to fit the size types of Qt and
of C. -/
def QByteArray.filled (size : Nat) (ch : Char) : QByteArray :=
  List.replicate size ch.toNat

/-- The algorithm `std::copy(first, last, d_first)`: the elements of the source
range are assigned one after the other to the destination, starting at position
`i` of `dest`. -/
def stdCopy : List Nat → QByteArray → Nat → QByteArray
  | [], dest, _ => dest
  | x :: xs, dest, i => stdCopy xs (dest.set i x) (i + 1)

/-- The UTF-8 encoding of one character (one to four bytes). -/
def utf8EncodeChar (c : Char) : List Nat :=
  let v := c.toNat
  if v ≤ 0x7f then [v]
  else if v ≤ 0x7ff then [0xc0 + v / 0x40, 0x80 + v % 0x40]
  else if v ≤ 0xffff then
    [0xe0 + v / 0x1000, 0x80 + v / 0x40 % 0x40, 0x80 + v % 0x40]
  else
    [0xf0 + v / 0x40000, 0x80 + v / 0x1000 % 0x40, 0x80 + v / 0x40 % 0x40,
      0x80 + v % 0x40]

/-- The UTF-8 encoding of a sequence of characters. -/
def utf8Encode : List Char → QByteArray
  | [] => []
  | c :: cs => utf8EncodeChar c ++ utf8Encode cs

/-- The method `QString::toUtf8()`: the UTF-8 encoding of the text. -/
def QString.toUtf8 (s : QString) : QByteArray := utf8Encode s.data

/-- The reading of a buffer of ASCII bytes as text, one character per byte. -/
def asciiText (bytes : QByteArray) : QString := String.mk (bytes.map Char.ofNat)

/-- The part of the contract of `QString::fromUtf8` that the theorems below rely
on: a buffer of non-NUL ASCII bytes is decoded to the text with one character
per byte. -/
def DecodesAscii (fromUtf8 : QByteArray → QString) : Prop :=
  ∀ bytes : QByteArray, (∀ b ∈ bytes, 1 ≤ b ∧ b ≤ 0x7f) → fromUtf8 bytes = asciiText bytes

/-- A sample decoder: every ASCII byte becomes its character, every other byte
the replacement character U+FFFD. -/
def bytewiseDecoder (bytes : QByteArray) : QString :=
  String.mk (bytes.map fun b => if b ≤ 0x7f then Char.ofNat b else Char.ofNat 0xfffd)

/-! ## The external library and the error table -/

/-- What a call of an olm primitive leaves behind: its `size_t` return value, the
state of the utility context, and the contents of the writable buffer that was
passed to it. -/
structure OlmCall (U : Type) where
  ret : Nat
  utility : U
  buffer : QByteArray

/-- The functions of libolm used by `QOlmUtility`, over the state `U` of an
`OlmUtility` context. Each primitive receives its buffers together with their
lengths, in the order of the C declaration. -/
structure Olm (U : Type) where
  olm_error : Nat
  olm_sha256_length : U → Nat
  olm_sha256 : U → QByteArray → Nat → QByteArray → Nat → OlmCall U
  olm_ed25519_verify :
    U → QByteArray → Nat → QByteArray → Nat → QByteArray → Nat → OlmCall U
  olm_utility_last_error : U → String

/-- The enumeration `QOlmError` (a type `E`) with its member `BadMessageMac` and
the translation `fromString` of an olm error string, as declared in
`e2ee/qolmerrors.h`. -/
structure QOlmErrors (E : Type) where
  BadMessageMac : E
  fromString : String → E

/-- The class `QOlmUtility`: the owner of one olm utility context. -/
structure QOlmUtility (U : Type) where
  m_utility : U

/-- The type `QOlmExpected<T>`: a value of `T` or a `QOlmError`. -/
abbrev QOlmExpected (E T : Type) := Except E T

/-! ## qolmutility.cpp -/

section Utility

variable {U E : Type}

/-- The function `lastError`: the last error of the context as a `QOlmError`. -/
def lastError (olm : Olm U) (errs : QOlmErrors E) (utility : U) : E :=
  errs.fromString (olm.olm_utility_last_error utility)

/-- The run of `sha256Bytes`: the buffer handed to `olm_sha256`, what the call
left behind, and the returned string. -/
structure Sha256Run (U : Type) where
  outputLen : Nat
  outputBuf : QByteArray
  call : OlmCall U
  result : QString

/-- The body of `QOlmUtility::sha256Bytes`, statement by statement. -/
def sha256BytesRun (olm : Olm U) (fromUtf8 : QByteArray → QString)
    (self : QOlmUtility U) (inputBuf : QByteArray) : Sha256Run U :=
  let outputLen := olm.olm_sha256_length self.m_utility
  let outputBuf := QByteArray.filled outputLen '0'
  let call := olm.olm_sha256 self.m_utility inputBuf inputBuf.length
    outputBuf outputBuf.length
  { outputLen := outputLen
    outputBuf := outputBuf
    call := call
    result := fromUtf8 call.buffer }

/-- The method `QOlmUtility::sha256Bytes`. -/
def sha256Bytes (olm : Olm U) (fromUtf8 : QByteArray → QString)
    (self : QOlmUtility U) (inputBuf : QByteArray) : QString :=
  (sha256BytesRun olm fromUtf8 self inputBuf).result

/-- The method `QOlmUtility::sha256Utf8Msg`. -/
def sha256Utf8Msg (olm : Olm U) (fromUtf8 : QByteArray → QString)
    (self : QOlmUtility U) (message : QString) : QString :=
  sha256Bytes olm fromUtf8 self (QString.toUtf8 message)

/-- The six buffer and length arguments of a call of `olm_ed25519_verify`. -/
structure VerifyArgs where
  key : QByteArray
  key_length : Nat
  message : QByteArray
  message_length : Nat
  signature : QByteArray
  signature_length : Nat

/-- The run of `ed25519Verify`: the arguments of the external call, what the
call left behind, the variables `signature` (the caller's) and `signatureBuf`
(the local scratch buffer) when the method returns, and the returned value. -/
structure VerifyRun (U E : Type) where
  args : VerifyArgs
  call : OlmCall U
  signature : QByteArray
  signatureBuf : QByteArray
  result : QOlmExpected E Bool

/-- The body of `QOlmUtility::ed25519Verify`, statement by statement. The
external primitive receives a pointer to the data of `signatureBuf`, so what it
writes ends up in `signatureBuf`. -/
def ed25519VerifyRun [DecidableEq E] (olm : Olm U) (errs : QOlmErrors E)
    (self : QOlmUtility U) (key message signature : QByteArray) : VerifyRun U E :=
  let signatureBuf := QByteArray.filled signature.length '0'
  let signatureBuf := stdCopy signature signatureBuf 0
  let args : VerifyArgs :=
    { key := key, key_length := key.length
      message := message, message_length := message.length
      signature := signatureBuf, signature_length := signatureBuf.length }
  let call := olm.olm_ed25519_verify self.m_utility args.key args.key_length
    args.message args.message_length args.signature args.signature_length
  let ret := call.ret
  { args := args
    call := call
    signature := signature
    signatureBuf := call.buffer
    result :=
      if ret = olm.olm_error then
        let error := lastError olm errs call.utility
        if error = errs.BadMessageMac then
          Except.ok false
        else
          Except.error error
      else
        Except.ok (decide (ret = 0)) }

/-- The method `QOlmUtility::ed25519Verify`. -/
def ed25519Verify [DecidableEq E] (olm : Olm U) (errs : QOlmErrors E)
    (self : QOlmUtility U) (key message signature : QByteArray) : QOlmExpected E Bool :=
  (ed25519VerifyRun olm errs self key message signature).result

/-! ### ed25519Verify over buffers in memory

The same body once more, with the byte arrays as buffers in memory, so that it
can be told apart which buffer the external primitive writes to. -/

/-- The memory of byte buffers: the buffer at address `p` is the `p`-th cell. -/
structure Memory where
  cells : List QByteArray

/-- The bytes of the buffer at address `p` (none when there is no such buffer). -/
def Memory.read (mem : Memory) (p : Nat) : QByteArray :=
  mem.cells.getD p []

/-- The memory after the buffer at address `p` has been overwritten with `bytes`. -/
def Memory.write (mem : Memory) (p : Nat) (bytes : QByteArray) : Memory :=
  { cells := mem.cells.set p bytes }

/-- The allocation of a new buffer holding `bytes`: its address, which no
existing buffer has, and the memory with the new buffer. -/
def Memory.alloc (mem : Memory) (bytes : QByteArray) : Nat × Memory :=
  (mem.cells.length, { cells := mem.cells ++ [bytes] })

/-- A call of `olm_ed25519_verify` with pointers into memory: the primitive
reads the three buffers, and what it leaves in the writable buffer is stored at
the address `signature` that it was given. -/
def olm_ed25519_verify_at (olm : Olm U) (utility : U) (mem : Memory)
    (key : Nat) (key_length : Nat) (message : Nat) (message_length : Nat)
    (signature : Nat) (signature_length : Nat) : OlmCall U × Memory :=
  let call := olm.olm_ed25519_verify utility (mem.read key) key_length
    (mem.read message) message_length (mem.read signature) signature_length
  (call, mem.write signature call.buffer)

/-- The run of `ed25519Verify` over memory: the address of the local scratch
buffer `signatureBuf`, the memory right before the external call, the outcome
of the call, the memory when the method returns, and the returned value. -/
structure VerifyMemRun (U E : Type) where
  signatureBuf : Nat
  before : Memory
  call : OlmCall U
  memory : Memory
  result : QOlmExpected E Bool

/-- The body of `QOlmUtility::ed25519Verify`, statement by statement, where
`key`, `message` and `signature` are the addresses of the caller's buffers. -/
def ed25519VerifyMem [DecidableEq E] (olm : Olm U) (errs : QOlmErrors E)
    (self : QOlmUtility U) (mem : Memory) (key message signature : Nat) :
    VerifyMemRun U E :=
  let fresh := mem.alloc (QByteArray.filled (mem.read signature).length '0')
  let signatureBuf := fresh.1
  let mem := fresh.2
  let mem := mem.write signatureBuf
    (stdCopy (mem.read signature) (mem.read signatureBuf) 0)
  let done := olm_ed25519_verify_at olm self.m_utility mem
    key (mem.read key).length message (mem.read message).length
    signatureBuf (mem.read signatureBuf).length
  let ret := done.1.ret
  { signatureBuf := signatureBuf
    before := mem
    call := done.1
    memory := done.2
    result :=
      if ret = olm.olm_error then
        let error := lastError olm errs done.1.utility
        if error = errs.BadMessageMac then
          Except.ok false
        else
          Except.error error
      else
        Except.ok (decide (ret = 0)) }

end Utility

/-! ## A sample library for concrete runs -/

/-- Sample error values. -/
inductive SampleError where
  | BadMessageMac
  | InvalidBase64
  | Unknown
  deriving DecidableEq, Repr

/-- A sample error table over `SampleError`. -/
def sampleErrors : QOlmErrors SampleError :=
  { BadMessageMac := SampleError.BadMessageMac
    fromString := fun s =>
      if s = "BAD_MESSAGE_MAC" then SampleError.BadMessageMac
      else if s = "INVALID_BASE64" then SampleError.InvalidBase64
      else SampleError.Unknown }

/-- A sample olm library whose context state is the last error string. Both
primitives return `ret`, set the last error to `err` and leave `out buf` in the
writable buffer `buf`; the digest length is `len`. -/
def sampleOlm (ret : Nat) (err : String) (len : Nat)
    (out : QByteArray → QByteArray) : Olm String :=
  { olm_error := 2 ^ 64 - 1
    olm_sha256_length := fun _ => len
    olm_sha256 := fun _ _ _ buf _ => { ret := ret, utility := err, buffer := out buf }
    olm_ed25519_verify := fun _ _ _ _ _ buf _ =>
      { ret := ret, utility := err, buffer := out buf }
    olm_utility_last_error := fun u => u }

end Quotient

namespace QMatrixClient

/-! ## JSON values -/

/-- The least value of the C++ type `int`. -/
def INT_MIN : Int := -2147483648

/-- The greatest value of the C++ type `int`. -/
def INT_MAX : Int := 2147483647

/-- The C++ type `int`: the integers from `INT_MIN` to `INT_MAX`. -/
abbrev CInt := { i : Int // INT_MIN ≤ i ∧ i ≤ INT_MAX }

/-- The `int` with the value zero. -/
def CInt.zero : CInt := ⟨0, by decide⟩

mutual

/-- A `QJsonValue`. The number of a `double` value is kept as a rational; a
missing value is `undefined`. -/
inductive QJsonValue where
  | null
  | bool (b : Bool)
  | double (d : ℚ)
  | string (s : String)
  | array (a : List QJsonValue)
  | object (o : QJsonObject)
  | undefined

/-- A `QJsonObject`, given by the value it holds under each key; a key the
object does not contain holds `undefined`. -/
inductive QJsonObject where
  | mk (members : String → QJsonValue)

end

/-- The method `QJsonObject::value(key)`, which is also `operator[](key)`. -/
def QJsonObject.value : QJsonObject → String → QJsonValue
  | QJsonObject.mk members, key => members key

/-- The empty object `QJsonObject()`. -/
def QJsonObject.empty : QJsonObject := QJsonObject.mk fun _ => QJsonValue.undefined

/-- The method `QJsonObject::insert(key, value)`: the value under `key` is
replaced; inserting `undefined` removes the key. -/
def QJsonObject.insert (o : QJsonObject) (key : String) (v : QJsonValue) : QJsonObject :=
  QJsonObject.mk fun k => if k = key then v else o.value k

/-- The method `QJsonObject::remove(key)`. -/
def QJsonObject.remove (o : QJsonObject) (key : String) : QJsonObject :=
  QJsonObject.mk fun k => if k = key then QJsonValue.undefined else o.value k

/-- The method `QJsonObject::take(key)`: the value under `key`, which is removed
from the object; the second component is the object afterwards. -/
def QJsonObject.take (o : QJsonObject) (key : String) : QJsonValue × QJsonObject :=
  (o.value key, o.remove key)

/-- The method `QJsonValue::toObject()`: the object, or an empty object when the
value is not an object. -/
def QJsonValue.toObject : QJsonValue → QJsonObject
  | QJsonValue.object o => o
  | _ => QJsonObject.empty

/-- The method `QJsonValue::toInt(defaultValue)`: the number when the value is a
double that is a whole number in the range of `int`, else `defaultValue`. -/
def QJsonValue.toInt (v : QJsonValue) (defaultValue : CInt) : CInt :=
  match v with
  | QJsonValue.double d =>
    if h : d.den = 1 ∧ INT_MIN ≤ d.num ∧ d.num ≤ INT_MAX then ⟨d.num, h.2⟩
    else defaultValue
  | _ => defaultValue

/-- The constructor `QJsonValue(int)`: the number is stored as a double. -/
def QJsonValue.ofInt (n : CInt) : QJsonValue := QJsonValue.double (n.val : ℚ)

namespace EventContent

/-! ## roommessageevent.h: PlayableContent -/

/-- What `PlayableContent<ContentT>` uses of its base class `ContentT`, whose
values are of type `B`: the constructor from a JSON object, `fillJson` (as the
object it leaves in `*json`) and the member `originalInfoJson`. -/
structure ContentT (B : Type) where
  fromJson : QJsonObject → B
  fillJson : B → QJsonObject → QJsonObject
  originalInfoJson : B → QJsonObject

/-- The class template `PlayableContent<ContentT>`: the base object and the
member `duration`. -/
structure PlayableContent (B : Type) where
  base : B
  duration : CInt

/-- The constructor `PlayableContent(const QJsonObject& json)`. The subscript
yields `undefined` (or, through the non-const overload, `null`) for a missing
key; `toInt()` gives 0 for both. -/
def PlayableContent.fromJson {B : Type} (T : ContentT B) (json : QJsonObject) :
    PlayableContent B :=
  let base := T.fromJson json
  { base := base
    duration := ((T.originalInfoJson base).value "duration").toInt CInt.zero }

/-- The method `PlayableContent::fillJson(json)`, as the object it leaves in
`*json`. -/
def PlayableContent.fillJson {B : Type} (T : ContentT B) (self : PlayableContent B)
    (json : QJsonObject) : QJsonObject :=
  let json := T.fillJson self.base json
  let taken := json.take "info"
  let infoJson := taken.1.toObject
  let json := taken.2
  let infoJson := infoJson.insert "duration" (QJsonValue.ofInt self.duration)
  json.insert "info" (QJsonValue.object infoJson)

/-- The constructor `PlayableContent(const QJsonObject& json)` over a base class
whose constructor may fail: `baseCtor json` is `none` when `ContentT(json)`
fails. The member `duration` is initialised once the base has been built. -/
def PlayableContent.construct {B : Type} (T : ContentT B)
    (baseCtor : QJsonObject → Option B) (json : QJsonObject) :
    Option (PlayableContent B) :=
  match baseCtor json with
  | none => none
  | some base =>
    some
      { base := base
        duration := ((T.originalInfoJson base).value "duration").toInt CInt.zero }

/-- A sample base class: it keeps the "info" object of the JSON it is built from
and writes it back next to a "url" key, as the URL-based contents do. -/
def sampleContent : ContentT QJsonObject :=
  { fromJson := fun json => (json.value "info").toObject
    fillJson := fun info json =>
      (json.insert "url" (QJsonValue.string "mxc://example.org/media")).insert "info"
        (QJsonValue.object info)
    originalInfoJson := fun info => info }

end EventContent

end QMatrixClient

/-! # Theorems -/

namespace Quotient

/-! ## Byte arrays and strings -/

theorem stdCopy_append (xs : List Nat) :
    ∀ (pre mid : List Nat), mid.length = xs.length →
      stdCopy xs (pre ++ mid) pre.length = pre ++ xs := by
  induction xs with
  | nil =>
    intro pre mid h
    have : mid = [] := List.length_eq_zero.mp h
    simp [stdCopy, this]
  | cons x xs ih =>
    intro pre mid h
    cases mid with
    | nil => simp at h
    | cons m ms =>
      simp only [List.length_cons, Nat.add_right_cancel_iff] at h
      have hset : (pre ++ m :: ms).set pre.length x = (pre ++ [x]) ++ ms := by
        simp [List.set_append]
      have hlen : pre.length + 1 = (pre ++ [x]).length := by simp
      rw [stdCopy, hset, hlen, ih (pre ++ [x]) ms h]
      simp

/-- Copying a signature over a scratch buffer of its own length gives the
signature. -/
theorem stdCopy_filled (s : List Nat) (c : Char) :
    stdCopy s (QByteArray.filled s.length c) 0 = s := by
  have := stdCopy_append s [] (QByteArray.filled s.length c) (by simp [QByteArray.filled])
  simpa using this

/-- The first byte of the encoding of a character is at most 0xF4. -/
theorem utf8EncodeChar_head (c : Char) :
    ∃ b rest, utf8EncodeChar c = b :: rest ∧ b ≤ 0xf4 := by
  have hv : c.toNat < 0x110000 := by
    have := c.valid
    simp only [Char.toNat]
    rcases this with h | h
    · omega
    · omega
  unfold utf8EncodeChar
  simp only
  split_ifs with h1 h2 h3
  · exact ⟨_, _, rfl, by omega⟩
  · exact ⟨_, _, rfl, by omega⟩
  · exact ⟨_, _, rfl, by omega⟩
  · exact ⟨_, _, rfl, by omega⟩

/-- No text has a UTF-8 encoding that starts with the byte 0xFF. -/
theorem toUtf8_ne_cons_ff (s : QString) (rest : List Nat) :
    QString.toUtf8 s ≠ 0xff :: rest := by
  unfold QString.toUtf8
  cases hs : s.data with
  | nil => simp [utf8Encode]
  | cons c cs =>
    obtain ⟨b, r, hb, hle⟩ := utf8EncodeChar_head c
    simp only [utf8Encode, hb, List.cons_append]
    intro h
    injection h with h1 _
    omega

theorem utf8Encode_ascii (bytes : List Nat) (h : ∀ b ∈ bytes, b ≤ 0x7f) :
    utf8Encode (bytes.map Char.ofNat) = bytes := by
  induction bytes with
  | nil => rfl
  | cons b bs ih =>
    have hb : b ≤ 0x7f := h b (by simp)
    have hval : (Char.ofNat b).toNat = b := by
      have : b.isValidChar := by left; omega
      simp only [Char.ofNat, this, Char.toNat, Char.ofNatAux, dif_pos]
      rfl
    simp only [List.map_cons, utf8Encode, utf8EncodeChar, hval, if_pos hb]
    rw [ih (fun x hx => h x (by simp [hx]))]
    rfl

/-- The encoding of the text read from ASCII bytes is the bytes again. -/
theorem toUtf8_asciiText (bytes : List Nat) (h : ∀ b ∈ bytes, b ≤ 0x7f) :
    QString.toUtf8 (asciiText bytes) = bytes := by
  simpa [QString.toUtf8, asciiText] using utf8Encode_ascii bytes h

theorem bytewiseDecoder_decodesAscii : DecodesAscii bytewiseDecoder := by
  intro bytes h
  unfold bytewiseDecoder asciiText
  congr 1
  apply List.map_congr_left
  intro b hb
  simp [(h b hb).2]

/-! ## The calls made by the utility -/

section Calls

variable {U E : Type} [DecidableEq E]

/-- The arguments of the verify call: key and message as given, and the copy of
the signature. -/
theorem ed25519VerifyRun_args (olm : Olm U) (errs : QOlmErrors E)
    (self : QOlmUtility U) (key message signature : QByteArray) :
    (ed25519VerifyRun olm errs self key message signature).args
      = { key := key, key_length := key.length
          message := message, message_length := message.length
          signature := signature, signature_length := signature.length } := by
  simp [ed25519VerifyRun, stdCopy_filled]

theorem ed25519VerifyRun_call (olm : Olm U) (errs : QOlmErrors E)
    (self : QOlmUtility U) (key message signature : QByteArray) :
    (ed25519VerifyRun olm errs self key message signature).call
      = olm.olm_ed25519_verify self.m_utility key key.length message message.length
          signature signature.length := by
  simp [ed25519VerifyRun, stdCopy_filled]

/-- The value of `ed25519Verify` in terms of the outcome of the verify call. -/
theorem ed25519Verify_eq (olm : Olm U) (errs : QOlmErrors E)
    (self : QOlmUtility U) (key message signature : QByteArray) :
    ed25519Verify olm errs self key message signature
      = if (olm.olm_ed25519_verify self.m_utility key key.length message message.length
            signature signature.length).ret = olm.olm_error then
          if lastError olm errs
              (olm.olm_ed25519_verify self.m_utility key key.length message message.length
                signature signature.length).utility = errs.BadMessageMac then
            Except.ok false
          else
            Except.error (lastError olm errs
              (olm.olm_ed25519_verify self.m_utility key key.length message message.length
                signature signature.length).utility)
        else
          Except.ok (decide ((olm.olm_ed25519_verify self.m_utility key key.length message
            message.length signature signature.length).ret = 0)) := by
  have hcall := ed25519VerifyRun_call olm errs self key message signature
  have hres : ed25519Verify olm errs self key message signature
      = if (ed25519VerifyRun olm errs self key message signature).call.ret
            = olm.olm_error then
          if lastError olm errs
              (ed25519VerifyRun olm errs self key message signature).call.utility
                = errs.BadMessageMac then
            Except.ok false
          else
            Except.error (lastError olm errs
              (ed25519VerifyRun olm errs self key message signature).call.utility)
        else
          Except.ok (decide
            ((ed25519VerifyRun olm errs self key message signature).call.ret = 0)) := rfl
  rw [hres, hcall]

/-- The call made by `sha256Bytes` and the string it returns. -/
theorem sha256BytesRun_call (olm : Olm U) (fromUtf8 : QByteArray → QString)
    (self : QOlmUtility U) (inputBuf : QByteArray) :
    (sha256BytesRun olm fromUtf8 self inputBuf).call
      = olm.olm_sha256 self.m_utility inputBuf inputBuf.length
          (QByteArray.filled (olm.olm_sha256_length self.m_utility) '0')
          (olm.olm_sha256_length self.m_utility) := by
  simp [sha256BytesRun, QByteArray.filled]

theorem sha256Bytes_eq (olm : Olm U) (fromUtf8 : QByteArray → QString)
    (self : QOlmUtility U) (inputBuf : QByteArray) :
    sha256Bytes olm fromUtf8 self inputBuf
      = fromUtf8 (olm.olm_sha256 self.m_utility inputBuf inputBuf.length
          (QByteArray.filled (olm.olm_sha256_length self.m_utility) '0')
          (olm.olm_sha256_length self.m_utility)).buffer := by
  have h : sha256Bytes olm fromUtf8 self inputBuf
      = fromUtf8 (sha256BytesRun olm fromUtf8 self inputBuf).call.buffer := rfl
  rw [h, sha256BytesRun_call]

end Calls

end Quotient

namespace Quotient

/-! ## ed25519Verify -/

section VerifyTheorems

variable {U E : Type} [DecidableEq E]

/-- C1 (as amended): when `olm_ed25519_verify` returns a value other than the
`olm_error()` marker, `ed25519Verify` returns the boolean `ret == 0`: it is
`true` exactly when the return value is 0, and `false` for every other value. -/
theorem ed25519Verify_no_error (olm : Olm U) (errs : QOlmErrors E)
    (self : QOlmUtility U) (key message signature : QByteArray)
    (h : (olm.olm_ed25519_verify self.m_utility key key.length message message.length
      signature signature.length).ret ≠ olm.olm_error) :
    (ed25519Verify olm errs self key message signature = Except.ok true ↔
      (olm.olm_ed25519_verify self.m_utility key key.length message message.length
        signature signature.length).ret = 0) ∧
    ((olm.olm_ed25519_verify self.m_utility key key.length message message.length
        signature signature.length).ret ≠ 0 →
      ed25519Verify olm errs self key message signature = Except.ok false) := by
  rw [ed25519Verify_eq, if_neg h]
  constructor
  · constructor
    · intro hok
      injection hok with hb
      exact of_decide_eq_true hb
    · intro h0
      rw [decide_eq_true h0]
  · intro hne
    rw [decide_eq_false hne]

/-- Witness of C1 (as amended): a verify call that returns 0. -/
theorem ed25519Verify_no_error_witness :
    ((sampleOlm 0 "" 43 id).olm_ed25519_verify "" [1] 1 [2] 1 [3] 1).ret
      ≠ (sampleOlm 0 "" 43 id).olm_error ∧
    ed25519Verify (sampleOlm 0 "" 43 id) sampleErrors ⟨""⟩ [1] [2] [3] = Except.ok true :=
  ⟨by decide,
    (ed25519Verify_no_error (sampleOlm 0 "" 43 id) sampleErrors ⟨""⟩ [1] [2] [3]
      (by decide)).1.2 rfl⟩

/-- Counterexample to C1 as stated: the verify call returns 1, which is not the
`olm_error()` marker, and `ed25519Verify` returns `false`, not `true`. -/
theorem ed25519Verify_nonzero_return_counterexample :
    ((sampleOlm 1 "" 43 id).olm_ed25519_verify "" [1] 1 [2] 1 [3] 1).ret = 1 ∧
    ((sampleOlm 1 "" 43 id).olm_ed25519_verify "" [1] 1 [2] 1 [3] 1).ret
      ≠ (sampleOlm 1 "" 43 id).olm_error ∧
    ed25519Verify (sampleOlm 1 "" 43 id) sampleErrors ⟨""⟩ [1] [2] [3] = Except.ok false ∧
    ed25519Verify (sampleOlm 1 "" 43 id) sampleErrors ⟨""⟩ [1] [2] [3] ≠ Except.ok true := by
  have hres : ed25519Verify (sampleOlm 1 "" 43 id) sampleErrors ⟨""⟩ [1] [2] [3]
      = Except.ok false := rfl
  refine ⟨rfl, by decide, hres, ?_⟩
  rw [hres]
  intro h
  cases h

/-- C2: when the verify call returns the `olm_error()` marker and the last error
of the utility translates to `BadMessageMac`, `ed25519Verify` returns the
ordinary value `false`, which is not an error. -/
theorem ed25519Verify_bad_mac (olm : Olm U) (errs : QOlmErrors E)
    (self : QOlmUtility U) (key message signature : QByteArray)
    (h : (olm.olm_ed25519_verify self.m_utility key key.length message message.length
      signature signature.length).ret = olm.olm_error)
    (hmac : lastError olm errs
      (olm.olm_ed25519_verify self.m_utility key key.length message message.length
        signature signature.length).utility = errs.BadMessageMac) :
    ed25519Verify olm errs self key message signature = Except.ok false ∧
    ∀ e : E, ed25519Verify olm errs self key message signature ≠ Except.error e := by
  have hres : ed25519Verify olm errs self key message signature = Except.ok false := by
    rw [ed25519Verify_eq, if_pos h, if_pos hmac]
  refine ⟨hres, ?_⟩
  intro e he
  rw [hres] at he
  cases he

/-- Witness of C2: a failing verify call whose last error is BAD_MESSAGE_MAC. -/
theorem ed25519Verify_bad_mac_witness :
    ed25519Verify (sampleOlm (2 ^ 64 - 1) "BAD_MESSAGE_MAC" 43 id) sampleErrors ⟨""⟩
      [1] [2] [3] = Except.ok false :=
  (ed25519Verify_bad_mac (sampleOlm (2 ^ 64 - 1) "BAD_MESSAGE_MAC" 43 id) sampleErrors ⟨""⟩
    [1] [2] [3] rfl (by decide)).1

theorem Memory.read_write_ne (mem : Memory) (p q : Nat) (bytes : QByteArray)
    (h : p ≠ q) : (mem.write p bytes).read q = mem.read q := by
  simp [Memory.read, Memory.write, List.getD_eq_getElem?_getD, List.getElem?_set, h]

theorem Memory.read_write_same (mem : Memory) (p : Nat) (bytes : QByteArray)
    (h : p < mem.cells.length) : (mem.write p bytes).read p = bytes := by
  simp [Memory.read, Memory.write, List.getD_eq_getElem?_getD, List.getElem?_set, h]

theorem Memory.length_write (mem : Memory) (p : Nat) (bytes : QByteArray) :
    (mem.write p bytes).cells.length = mem.cells.length := by
  simp [Memory.write]

/-- A new buffer leaves the existing buffers as they are. -/
theorem Memory.read_alloc_old (mem : Memory) (bytes : QByteArray) (q : Nat)
    (h : q < mem.cells.length) : (mem.alloc bytes).2.read q = mem.read q := by
  simp [Memory.read, Memory.alloc, List.getD_eq_getElem?_getD, List.getElem?_append_left h]

theorem Memory.read_alloc_new (mem : Memory) (bytes : QByteArray) :
    (mem.alloc bytes).2.read (mem.alloc bytes).1 = bytes := by
  simp [Memory.read, Memory.alloc, List.getD_eq_getElem?_getD]

/-- The memory right before the external call: the caller's buffers are as they
were, and the scratch buffer, at a new address, holds a copy of the signature. -/
theorem ed25519VerifyMem_before (olm : Olm U) (errs : QOlmErrors E)
    (self : QOlmUtility U) (mem : Memory) (key message signature : Nat)
    (hs : signature < mem.cells.length) :
    (ed25519VerifyMem olm errs self mem key message signature).signatureBuf
        = mem.cells.length ∧
    (ed25519VerifyMem olm errs self mem key message signature).before.read
        (ed25519VerifyMem olm errs self mem key message signature).signatureBuf
        = mem.read signature ∧
    ∀ p : Nat, p < mem.cells.length →
      (ed25519VerifyMem olm errs self mem key message signature).before.read p
        = mem.read p := by
  have hnew : (mem.alloc (QByteArray.filled (mem.read signature).length '0')).1
      = mem.cells.length := rfl
  have hlen : mem.cells.length
      < (mem.alloc (QByteArray.filled (mem.read signature).length '0')).2.cells.length := by
    simp [Memory.alloc]
  refine ⟨rfl, ?_, ?_⟩
  · simp only [ed25519VerifyMem]
    rw [hnew, Memory.read_write_same _ _ _ hlen, Memory.read_alloc_old _ _ _ hs]
    have h0 := Memory.read_alloc_new mem (QByteArray.filled (mem.read signature).length '0')
    rw [hnew] at h0
    rw [h0]
    exact stdCopy_filled _ _
  · intro p hp
    simp only [ed25519VerifyMem]
    have hne : mem.cells.length ≠ p := by omega
    rw [hnew, Memory.read_write_ne _ _ _ _ hne, Memory.read_alloc_old _ _ _ hp]

/-- C9: the scratch buffer passed to `olm_ed25519_verify` is a buffer of its own
that holds a copy of the caller's signature (same length, same byte at every
index); the key and the message are passed as they are, each with its own
length; and when the method returns the caller's signature, like every buffer
that existed before, holds the bytes it held, while what the external primitive
wrote is in the scratch buffer. -/
theorem ed25519Verify_scratch_buffer (olm : Olm U) (errs : QOlmErrors E)
    (self : QOlmUtility U) (mem : Memory) (key message signature : Nat)
    (hk : key < mem.cells.length) (hm : message < mem.cells.length)
    (hs : signature < mem.cells.length) :
    (ed25519VerifyMem olm errs self mem key message signature).signatureBuf ≠ signature ∧
    ((ed25519VerifyMem olm errs self mem key message signature).before.read
        (ed25519VerifyMem olm errs self mem key message signature).signatureBuf).length
      = (mem.read signature).length ∧
    (∀ i : Nat,
      ((ed25519VerifyMem olm errs self mem key message signature).before.read
        (ed25519VerifyMem olm errs self mem key message signature).signatureBuf)[i]?
      = (mem.read signature)[i]?) ∧
    ((ed25519VerifyMem olm errs self mem key message signature).call,
      (ed25519VerifyMem olm errs self mem key message signature).memory)
      = olm_ed25519_verify_at olm self.m_utility
          (ed25519VerifyMem olm errs self mem key message signature).before
          key (mem.read key).length message (mem.read message).length
          (ed25519VerifyMem olm errs self mem key message signature).signatureBuf
          (mem.read signature).length ∧
    (ed25519VerifyMem olm errs self mem key message signature).call
      = olm.olm_ed25519_verify self.m_utility (mem.read key) (mem.read key).length
          (mem.read message) (mem.read message).length
          (mem.read signature) (mem.read signature).length ∧
    (∀ p : Nat, p < mem.cells.length →
      (ed25519VerifyMem olm errs self mem key message signature).memory.read p
        = mem.read p) ∧
    (ed25519VerifyMem olm errs self mem key message signature).memory.read signature
      = mem.read signature ∧
    (ed25519VerifyMem olm errs self mem key message signature).memory.read
        (ed25519VerifyMem olm errs self mem key message signature).signatureBuf
      = (ed25519VerifyMem olm errs self mem key message signature).call.buffer ∧
    (ed25519VerifyMem olm errs self mem key message signature).result
      = ed25519Verify olm errs self (mem.read key) (mem.read message)
          (mem.read signature) := by
  obtain ⟨hbuf, hcopy, hold⟩ :=
    ed25519VerifyMem_before olm errs self mem key message signature hs
  have hkey := hold key hk
  have hmsg := hold message hm
  have hblen : mem.cells.length
      < (ed25519VerifyMem olm errs self mem key message signature).before.cells.length := by
    simp [ed25519VerifyMem, Memory.write, Memory.alloc]
  have hrun : ((ed25519VerifyMem olm errs self mem key message signature).call,
      (ed25519VerifyMem olm errs self mem key message signature).memory)
      = olm_ed25519_verify_at olm self.m_utility
          (ed25519VerifyMem olm errs self mem key message signature).before
          key ((ed25519VerifyMem olm errs self mem key message signature).before.read
            key).length
          message ((ed25519VerifyMem olm errs self mem key message signature).before.read
            message).length
          (ed25519VerifyMem olm errs self mem key message signature).signatureBuf
          ((ed25519VerifyMem olm errs self mem key message signature).before.read
            (ed25519VerifyMem olm errs self mem key message signature).signatureBuf).length :=
    rfl
  rw [hkey, hmsg, hcopy] at hrun
  have hcall : (ed25519VerifyMem olm errs self mem key message signature).call
      = olm.olm_ed25519_verify self.m_utility (mem.read key) (mem.read key).length
          (mem.read message) (mem.read message).length
          (mem.read signature) (mem.read signature).length := by
    have h1 := congrArg Prod.fst hrun
    simp only [olm_ed25519_verify_at] at h1
    rw [hkey, hmsg, hcopy] at h1
    exact h1
  have hmem : (ed25519VerifyMem olm errs self mem key message signature).memory
      = (ed25519VerifyMem olm errs self mem key message signature).before.write
          (ed25519VerifyMem olm errs self mem key message signature).signatureBuf
          (ed25519VerifyMem olm errs self mem key message signature).call.buffer := rfl
  have hframe : ∀ p : Nat, p < mem.cells.length →
      (ed25519VerifyMem olm errs self mem key message signature).memory.read p
        = mem.read p := by
    intro p hp
    have hne : (ed25519VerifyMem olm errs self mem key message signature).signatureBuf
        ≠ p := by
      rw [hbuf]
      omega
    rw [hmem, Memory.read_write_ne _ _ _ _ hne, hold p hp]
  refine ⟨by rw [hbuf]; omega, by rw [hcopy], fun i => by rw [hcopy], hrun, hcall,
    hframe, hframe signature hs, ?_, ?_⟩
  · rw [hmem]
    exact Memory.read_write_same _ _ _ (by rw [hbuf]; exact hblen)
  · have hres : (ed25519VerifyMem olm errs self mem key message signature).result
        = if (ed25519VerifyMem olm errs self mem key message signature).call.ret
              = olm.olm_error then
            if lastError olm errs
                (ed25519VerifyMem olm errs self mem key message signature).call.utility
                  = errs.BadMessageMac then
              Except.ok false
            else
              Except.error (lastError olm errs
                (ed25519VerifyMem olm errs self mem key message signature).call.utility)
          else
            Except.ok (decide
              ((ed25519VerifyMem olm errs self mem key message signature).call.ret = 0)) :=
      rfl
    rw [hres, hcall, ed25519Verify_eq]

/-- Witness of C9: the external primitive overwrites the scratch buffer with
zeros; the caller's signature at address 2 still holds 3, 4 and the zeros are in
the scratch buffer at address 3. -/
theorem ed25519Verify_scratch_buffer_witness :
    (ed25519VerifyMem (sampleOlm 0 "" 43 fun buf => buf.map fun _ => 0) sampleErrors ⟨""⟩
        { cells := [[1], [2], [3, 4]] } 0 1 2).memory.read 2 = [3, 4] ∧
    (ed25519VerifyMem (sampleOlm 0 "" 43 fun buf => buf.map fun _ => 0) sampleErrors ⟨""⟩
        { cells := [[1], [2], [3, 4]] } 0 1 2).memory.read 3 = [0, 0] :=
  ⟨(ed25519Verify_scratch_buffer (sampleOlm 0 "" 43 fun buf => buf.map fun _ => 0)
      sampleErrors ⟨""⟩ { cells := [[1], [2], [3, 4]] } 0 1 2
      (by decide) (by decide) (by decide)).2.2.2.2.2.2.1,
    rfl⟩

end VerifyTheorems

/-! ## sha256Bytes and sha256Utf8Msg -/

section DigestTheorems

variable {U : Type}

/-- C7: `sha256Utf8Msg(text)` is `sha256Bytes` of the UTF-8 encoding of `text`,
on the same utility context; shown also on a text with characters of two, three
and four bytes. -/
theorem sha256Utf8Msg_eq_sha256Bytes_utf8 (olm : Olm U) (fromUtf8 : QByteArray → QString)
    (self : QOlmUtility U) (text : QString) :
    sha256Utf8Msg olm fromUtf8 self text
        = sha256Bytes olm fromUtf8 self (utf8Encode text.data) ∧
    sha256Utf8Msg olm fromUtf8 self "é€😀"
        = sha256Bytes olm fromUtf8 self
            [0xc3, 0xa9, 0xe2, 0x82, 0xac, 0xf0, 0x9f, 0x98, 0x80] :=
  ⟨rfl, rfl⟩

/-- C8 (as amended): the output buffer handed to `olm_sha256` has exactly the
length reported by `olm_sha256_length`, the returned string is `fromUtf8` of the
buffer the call left behind, and when that buffer holds only non-NUL ASCII bytes
the UTF-8 encoding of the returned string is that buffer again. -/
theorem sha256Bytes_output_buffer (olm : Olm U) (fromUtf8 : QByteArray → QString)
    (self : QOlmUtility U) (inputBuf : QByteArray) :
    (sha256BytesRun olm fromUtf8 self inputBuf).call
        = olm.olm_sha256 self.m_utility inputBuf inputBuf.length
            (sha256BytesRun olm fromUtf8 self inputBuf).outputBuf
            (sha256BytesRun olm fromUtf8 self inputBuf).outputBuf.length ∧
    (sha256BytesRun olm fromUtf8 self inputBuf).outputBuf.length
        = olm.olm_sha256_length self.m_utility ∧
    sha256Bytes olm fromUtf8 self inputBuf
        = fromUtf8 (sha256BytesRun olm fromUtf8 self inputBuf).call.buffer ∧
    (DecodesAscii fromUtf8 →
      (∀ b ∈ (sha256BytesRun olm fromUtf8 self inputBuf).call.buffer, 1 ≤ b ∧ b ≤ 0x7f) →
      QString.toUtf8 (sha256Bytes olm fromUtf8 self inputBuf)
        = (sha256BytesRun olm fromUtf8 self inputBuf).call.buffer) := by
  refine ⟨rfl, ?_, rfl, ?_⟩
  · simp [sha256BytesRun, QByteArray.filled]
  · intro hdec hascii
    have hres : sha256Bytes olm fromUtf8 self inputBuf
        = fromUtf8 (sha256BytesRun olm fromUtf8 self inputBuf).call.buffer := rfl
    rw [hres, hdec _ hascii]
    exact toUtf8_asciiText _ (fun b hb => (hascii b hb).2)

/-- Witness of C8 (as amended): a digest call that leaves the ASCII bytes "abc". -/
theorem sha256Bytes_output_buffer_witness :
    QString.toUtf8
        (sha256Bytes (sampleOlm 0 "" 3 fun _ => [0x61, 0x62, 0x63]) bytewiseDecoder ⟨""⟩ [7])
      = (sha256BytesRun (sampleOlm 0 "" 3 fun _ => [0x61, 0x62, 0x63]) bytewiseDecoder ⟨""⟩
          [7]).call.buffer :=
  (sha256Bytes_output_buffer (sampleOlm 0 "" 3 fun _ => [0x61, 0x62, 0x63]) bytewiseDecoder
    ⟨""⟩ [7]).2.2.2 bytewiseDecoder_decodesAscii (by decide)

/-- Counterexample to C8 as stated: the digest call leaves the single byte 0xFF
in the output buffer. With the sample decoder the returned string encodes to the
three bytes of U+FFFD, and no decoder at all can return a string whose UTF-8
encoding is the byte 0xFF. -/
theorem sha256Bytes_lossy_counterexample :
    (sha256BytesRun (sampleOlm 0 "" 1 fun _ => [0xff]) bytewiseDecoder ⟨""⟩ []).call.buffer
        = [0xff] ∧
    QString.toUtf8 (sha256Bytes (sampleOlm 0 "" 1 fun _ => [0xff]) bytewiseDecoder ⟨""⟩ [])
        = [0xef, 0xbf, 0xbd] ∧
    ¬ ∃ fromUtf8 : QByteArray → QString,
        QString.toUtf8 (sha256Bytes (sampleOlm 0 "" 1 fun _ => [0xff]) fromUtf8 ⟨""⟩ [])
          = (sha256BytesRun (sampleOlm 0 "" 1 fun _ => [0xff]) fromUtf8 ⟨""⟩ []).call.buffer := by
  refine ⟨rfl, by decide, ?_⟩
  rintro ⟨fromUtf8, h⟩
  exact toUtf8_ne_cons_ff _ [] h

/-- C10: `sha256Bytes` has no failure result. When the digest call fails (it
returns the `olm_error()` marker) and leaves the output buffer as it was handed
over, the returned string is the reading of `olm_sha256_length` bytes '0', which
is the character '0' repeated that many times. -/
theorem sha256Bytes_failure_placeholder (olm : Olm U) (fromUtf8 : QByteArray → QString)
    (self : QOlmUtility U) (inputBuf : QByteArray)
    (_hfail : (olm.olm_sha256 self.m_utility inputBuf inputBuf.length
      (QByteArray.filled (olm.olm_sha256_length self.m_utility) '0')
      (olm.olm_sha256_length self.m_utility)).ret = olm.olm_error)
    (hkeep : (olm.olm_sha256 self.m_utility inputBuf inputBuf.length
      (QByteArray.filled (olm.olm_sha256_length self.m_utility) '0')
      (olm.olm_sha256_length self.m_utility)).buffer
        = QByteArray.filled (olm.olm_sha256_length self.m_utility) '0') :
    sha256Bytes olm fromUtf8 self inputBuf
        = fromUtf8 (QByteArray.filled (olm.olm_sha256_length self.m_utility) '0') ∧
    (DecodesAscii fromUtf8 →
      sha256Bytes olm fromUtf8 self inputBuf
          = String.mk (List.replicate (olm.olm_sha256_length self.m_utility) '0') ∧
      (sha256Bytes olm fromUtf8 self inputBuf).length
          = olm.olm_sha256_length self.m_utility) := by
  have h1 : sha256Bytes olm fromUtf8 self inputBuf
      = fromUtf8 (QByteArray.filled (olm.olm_sha256_length self.m_utility) '0') := by
    rw [sha256Bytes_eq, hkeep]
  refine ⟨h1, ?_⟩
  intro hdec
  have hres : sha256Bytes olm fromUtf8 self inputBuf
      = String.mk (List.replicate (olm.olm_sha256_length self.m_utility) '0') := by
    have h2 : QByteArray.filled (olm.olm_sha256_length self.m_utility) '0'
        = List.replicate (olm.olm_sha256_length self.m_utility) 48 := rfl
    rw [h1, h2, hdec]
    · simp [asciiText]
    · intro b hb
      have := List.eq_of_mem_replicate hb
      omega
  refine ⟨hres, ?_⟩
  rw [hres]
  simp [String.length]

/-- Witness of C10: a digest call that fails and writes nothing, with a digest
length of 4. -/
theorem sha256Bytes_failure_placeholder_witness :
    sha256Bytes (sampleOlm (2 ^ 64 - 1) "OUTPUT_BUFFER_TOO_SMALL" 4 id) bytewiseDecoder ⟨""⟩
      [1, 2, 3] = "0000" :=
  ((sha256Bytes_failure_placeholder (sampleOlm (2 ^ 64 - 1) "OUTPUT_BUFFER_TOO_SMALL" 4 id)
    bytewiseDecoder ⟨""⟩ [1, 2, 3] rfl rfl).2 bytewiseDecoder_decodesAscii).1

end DigestTheorems

end Quotient

namespace QMatrixClient

/-! ## JSON objects -/

/-- Two objects with the same value under every key are the same object. -/
theorem QJsonObject.ext_value (a b : QJsonObject) (h : ∀ k, a.value k = b.value k) :
    a = b := by
  cases a with
  | mk f =>
    cases b with
    | mk g =>
      have : f = g := funext h
      rw [this]

theorem QJsonObject.value_insert (o : QJsonObject) (key k : String) (v : QJsonValue) :
    (o.insert key v).value k = if k = key then v else o.value k := rfl

theorem QJsonObject.value_remove (o : QJsonObject) (key k : String) :
    (o.remove key).value k = if k = key then QJsonValue.undefined else o.value k := rfl

theorem QJsonObject.value_empty (k : String) :
    QJsonObject.empty.value k = QJsonValue.undefined := rfl

/-- Taking a key out and inserting it again is the same as inserting it. -/
theorem QJsonObject.insert_remove (o : QJsonObject) (key : String) (v : QJsonValue) :
    (o.remove key).insert key v = o.insert key v := by
  apply QJsonObject.ext_value
  intro k
  simp only [QJsonObject.value_insert, QJsonObject.value_remove]
  split_ifs <;> rfl

/-- An `int` stored in a JSON value is read back by `toInt`. -/
theorem QJsonValue.toInt_ofInt (n defaultValue : CInt) :
    (QJsonValue.ofInt n).toInt defaultValue = n := by
  obtain ⟨i, hi⟩ := n
  have hden : ((i : ℚ)).den = 1 := Rat.den_intCast i
  have hnum : ((i : ℚ)).num = i := Rat.num_intCast i
  have hcond : ((i : ℚ)).den = 1 ∧ INT_MIN ≤ ((i : ℚ)).num ∧ ((i : ℚ)).num ≤ INT_MAX := by
    rw [hden, hnum]
    exact ⟨rfl, hi⟩
  simp only [QJsonValue.ofInt, QJsonValue.toInt]
  rw [dif_pos hcond]
  exact Subtype.ext hnum

namespace EventContent

/-! ## PlayableContent -/

variable {B : Type}

/-- The object left by `fillJson`: the base's object with a new "info" entry. -/
theorem PlayableContent.fillJson_eq (T : ContentT B) (x : PlayableContent B)
    (json : QJsonObject) :
    PlayableContent.fillJson T x json
      = (T.fillJson x.base json).insert "info"
          (QJsonValue.object
            (((T.fillJson x.base json).value "info").toObject.insert "duration"
              (QJsonValue.ofInt x.duration))) := by
  simp only [PlayableContent.fillJson, QJsonObject.take]
  exact QJsonObject.insert_remove _ _ _

/-- C4: for a base class that keeps the "info" object of its JSON as
`originalInfoJson`, the content built from the JSON written by `fillJson` has
the duration of the content that wrote it, for every `int` duration. -/
theorem playable_duration_roundtrip (T : ContentT B)
    (hT : ∀ json, T.originalInfoJson (T.fromJson json) = (json.value "info").toObject)
    (x : PlayableContent B) (json : QJsonObject) :
    (PlayableContent.fromJson T (PlayableContent.fillJson T x json)).duration
      = x.duration := by
  simp only [PlayableContent.fromJson, hT]
  rw [PlayableContent.fillJson_eq]
  simp [QJsonObject.value_insert, QJsonValue.toObject, QJsonValue.toInt_ofInt]

/-- Witness of C4: the sample base class with a duration of 5000 and with a
duration of 0. -/
theorem playable_duration_roundtrip_witness :
    (PlayableContent.fromJson sampleContent
        (PlayableContent.fillJson sampleContent
          { base := QJsonObject.empty, duration := ⟨5000, by decide⟩ }
          QJsonObject.empty)).duration = ⟨5000, by decide⟩ ∧
    (PlayableContent.fromJson sampleContent
        (PlayableContent.fillJson sampleContent
          { base := QJsonObject.empty, duration := CInt.zero }
          QJsonObject.empty)).duration = CInt.zero :=
  ⟨playable_duration_roundtrip sampleContent (fun _ => rfl)
      { base := QJsonObject.empty, duration := ⟨5000, by decide⟩ } QJsonObject.empty,
    playable_duration_roundtrip sampleContent (fun _ => rfl)
      { base := QJsonObject.empty, duration := CInt.zero } QJsonObject.empty⟩

/-- C5: the object left by `PlayableContent::fillJson` is the object left by the
base class with its "info" entry replaced by the base's info object plus
"duration"; so the other info keys keep their values, the top-level keys other
than "info" are unchanged, and no top-level "duration" appears. -/
theorem playable_fillJson_info (T : ContentT B) (x : PlayableContent B)
    (json : QJsonObject) :
    PlayableContent.fillJson T x json
      = (T.fillJson x.base json).insert "info"
          (QJsonValue.object
            (((T.fillJson x.base json).value "info").toObject.insert "duration"
              (QJsonValue.ofInt x.duration))) ∧
    ((PlayableContent.fillJson T x json).value "info").toObject.value "duration"
      = QJsonValue.ofInt x.duration ∧
    (∀ k : String, k ≠ "duration" →
      ((PlayableContent.fillJson T x json).value "info").toObject.value k
        = ((T.fillJson x.base json).value "info").toObject.value k) ∧
    (∀ k : String, k ≠ "info" →
      (PlayableContent.fillJson T x json).value k = (T.fillJson x.base json).value k) ∧
    ((T.fillJson x.base json).value "duration" = QJsonValue.undefined →
      (PlayableContent.fillJson T x json).value "duration" = QJsonValue.undefined) := by
  have heq := PlayableContent.fillJson_eq T x json
  refine ⟨heq, ?_, ?_, ?_, ?_⟩
  · rw [heq]
    simp [QJsonObject.value_insert, QJsonValue.toObject]
  · intro k hk
    rw [heq]
    simp [QJsonObject.value_insert, QJsonValue.toObject, hk]
  · intro k hk
    rw [heq]
    simp [QJsonObject.value_insert, hk]
  · intro h
    rw [heq]
    simp [QJsonObject.value_insert, h]

/-- Witness of C5: the sample base class, whose info object holds "size". -/
theorem playable_fillJson_info_witness :
    ((PlayableContent.fillJson sampleContent
        { base := QJsonObject.empty.insert "size" (QJsonValue.double 1024),
          duration := ⟨5000, by decide⟩ }
        QJsonObject.empty).value "info").toObject.value "size" = QJsonValue.double 1024 ∧
    (PlayableContent.fillJson sampleContent
        { base := QJsonObject.empty.insert "size" (QJsonValue.double 1024),
          duration := ⟨5000, by decide⟩ }
        QJsonObject.empty).value "url" = QJsonValue.string "mxc://example.org/media" ∧
    (PlayableContent.fillJson sampleContent
        { base := QJsonObject.empty.insert "size" (QJsonValue.double 1024),
          duration := ⟨5000, by decide⟩ }
        QJsonObject.empty).value "duration" = QJsonValue.undefined :=
  ⟨((playable_fillJson_info sampleContent
        { base := QJsonObject.empty.insert "size" (QJsonValue.double 1024),
          duration := ⟨5000, by decide⟩ } QJsonObject.empty).2.2.1 "size" (by decide)).trans
      (by simp [sampleContent, QJsonObject.value_insert, QJsonValue.toObject]),
    ((playable_fillJson_info sampleContent
        { base := QJsonObject.empty.insert "size" (QJsonValue.double 1024),
          duration := ⟨5000, by decide⟩ } QJsonObject.empty).2.2.2.1 "url" (by decide)).trans
      (by simp [sampleContent, QJsonObject.value_insert]),
    (playable_fillJson_info sampleContent
        { base := QJsonObject.empty.insert "size" (QJsonValue.double 1024),
          duration := ⟨5000, by decide⟩ } QJsonObject.empty).2.2.2.2
      (by simp [sampleContent, QJsonObject.value_insert, QJsonObject.value_empty])⟩

/-- What `toInt` gives for a whole number: the number when it is in the range of
`int`, else the default. -/
theorem QJsonValue.toInt_double_intCast (d : Int) (defaultValue : CInt) :
    (INT_MIN ≤ d ∧ d ≤ INT_MAX →
      ((QJsonValue.double (d : ℚ)).toInt defaultValue).val = d) ∧
    (d < INT_MIN ∨ INT_MAX < d →
      (QJsonValue.double (d : ℚ)).toInt defaultValue = defaultValue) := by
  have hnum : ((d : ℚ)).num = d := Rat.num_intCast d
  constructor
  · intro h
    exact congrArg Subtype.val (QJsonValue.toInt_ofInt ⟨d, h⟩ defaultValue)
  · intro h
    have hcond : ¬ (((d : ℚ)).den = 1 ∧ INT_MIN ≤ ((d : ℚ)).num ∧ ((d : ℚ)).num ≤ INT_MAX) := by
      rw [hnum]
      rintro ⟨_, h1, h2⟩
      rcases h with h | h <;> omega
    simp only [QJsonValue.toInt]
    rw [dif_neg hcond]

/-- C6 (as amended): the constructor from JSON takes the duration from the
"duration" entry of the base's `originalInfoJson` when that entry is a whole
number in the range of `int`; it gives 0 when the entry is a whole number
outside that range, when the entry is missing, and when the JSON has no "info"
entry and the base keeps the "info" object as `originalInfoJson`. Construction
fails only when the constructor of the base class fails: once the base is built,
a missing "duration" gives the content with that base and the duration 0. -/
theorem playable_fromJson_duration (T : ContentT B) (json : QJsonObject) :
    (∀ d : Int, INT_MIN ≤ d ∧ d ≤ INT_MAX →
      (T.originalInfoJson (T.fromJson json)).value "duration" = QJsonValue.double (d : ℚ) →
      ((PlayableContent.fromJson T json).duration.val = d)) ∧
    (∀ d : Int, d < INT_MIN ∨ INT_MAX < d →
      (T.originalInfoJson (T.fromJson json)).value "duration" = QJsonValue.double (d : ℚ) →
      (PlayableContent.fromJson T json).duration = CInt.zero) ∧
    ((T.originalInfoJson (T.fromJson json)).value "duration" = QJsonValue.undefined →
      (PlayableContent.fromJson T json).duration = CInt.zero) ∧
    ((∀ j, T.originalInfoJson (T.fromJson j) = (j.value "info").toObject) →
      json.value "info" = QJsonValue.undefined →
      (PlayableContent.fromJson T json).duration = CInt.zero) ∧
    (∀ (baseCtor : QJsonObject → Option B) (base : B), baseCtor json = some base →
      (T.originalInfoJson base).value "duration" = QJsonValue.undefined →
      PlayableContent.construct T baseCtor json
        = some { base := base, duration := CInt.zero }) ∧
    (∀ baseCtor : QJsonObject → Option B,
      (PlayableContent.construct T baseCtor json).isSome = (baseCtor json).isSome) ∧
    PlayableContent.construct T (fun j => some (T.fromJson j)) json
      = some (PlayableContent.fromJson T json) := by
  refine ⟨?_, ?_, ?_, ?_, ?_, ?_, rfl⟩
  · intro d hd hv
    simp only [PlayableContent.fromJson, hv]
    exact (QJsonValue.toInt_double_intCast d CInt.zero).1 hd
  · intro d hd hv
    simp only [PlayableContent.fromJson, hv]
    exact (QJsonValue.toInt_double_intCast d CInt.zero).2 hd
  · intro h
    simp only [PlayableContent.fromJson, h, QJsonValue.toInt]
  · intro hT hinfo
    simp only [PlayableContent.fromJson, hT, hinfo, QJsonValue.toObject,
      QJsonObject.value_empty, QJsonValue.toInt]
  · intro baseCtor base hb hv
    simp only [PlayableContent.construct, hb, hv, QJsonValue.toInt]
  · intro baseCtor
    unfold PlayableContent.construct
    cases baseCtor json <;> rfl

/-- Witness of C6 (as amended): a JSON object with `info.duration = 5000`, and
the empty JSON object. -/
theorem playable_fromJson_duration_witness :
    (PlayableContent.fromJson sampleContent
        (QJsonObject.empty.insert "info"
          (QJsonValue.object
            (QJsonObject.empty.insert "duration"
              (QJsonValue.double ((5000 : Int) : ℚ)))))).duration.val = 5000 ∧
    (PlayableContent.fromJson sampleContent QJsonObject.empty).duration = CInt.zero ∧
    PlayableContent.construct sampleContent (fun j => some (sampleContent.fromJson j))
        QJsonObject.empty
      = some { base := QJsonObject.empty, duration := CInt.zero } :=
  ⟨(playable_fromJson_duration sampleContent _).1 5000 (by decide) rfl,
    (playable_fromJson_duration sampleContent QJsonObject.empty).2.2.2.1 (fun _ => rfl) rfl,
    (playable_fromJson_duration sampleContent QJsonObject.empty).2.2.2.2.1
      (fun j => some (sampleContent.fromJson j)) QJsonObject.empty rfl rfl⟩

/-- Counterexample to C6 as stated: the info subtree holds "duration" with the
integer value 3000000000, which is more than an `int` can hold, and the
resulting duration is 0, not that value. -/
theorem playable_fromJson_duration_counterexample :
    (sampleContent.originalInfoJson
        (sampleContent.fromJson
          (QJsonObject.empty.insert "info"
            (QJsonValue.object
              (QJsonObject.empty.insert "duration"
                (QJsonValue.double ((3000000000 : Int) : ℚ))))))).value "duration"
      = QJsonValue.double ((3000000000 : Int) : ℚ) ∧
    (PlayableContent.fromJson sampleContent
        (QJsonObject.empty.insert "info"
          (QJsonValue.object
            (QJsonObject.empty.insert "duration"
              (QJsonValue.double ((3000000000 : Int) : ℚ)))))).duration = CInt.zero ∧
    (PlayableContent.fromJson sampleContent
        (QJsonObject.empty.insert "info"
          (QJsonValue.object
            (QJsonObject.empty.insert "duration"
              (QJsonValue.double ((3000000000 : Int) : ℚ)))))).duration.val
      ≠ 3000000000 := by
  have hzero : (PlayableContent.fromJson sampleContent
      (QJsonObject.empty.insert "info"
        (QJsonValue.object
          (QJsonObject.empty.insert "duration"
            (QJsonValue.double ((3000000000 : Int) : ℚ)))))).duration = CInt.zero :=
    (QJsonValue.toInt_double_intCast 3000000000 CInt.zero).2 (by decide)
  refine ⟨rfl, hzero, ?_⟩
  rw [hzero]
  decide

end EventContent

end QMatrixClient
